import Mathlib

/-!
Verification of the mzTab-M to MetaboLights (ISA-Tab) converter driver
(`mztabm2mtbls/converter.py`).

The development shallowly embeds the `convert` command: the path analysis
(`os.path.splitext`, `str.lower`, `str.startswith`), the pre-conversion
branch that may launch the external containerized tool via `subprocess.run`,
the parse/normalize/construct/normalize/skeleton stages, the mapper loop over
the module-level `mappers` list, and the final serialization call.  Stages
whose implementations live outside this module (the JSON loader, the two
normalization passes, pydantic model validation, the MetaboLights model
factory, and each mapper's `update`) are abstracted as function parameters in
a `Stages` record; the driver's control flow is translated faithfully from
the source.  Observable behaviour is recorded as an event trace.
-/

namespace Mztab2Mtbls

/-! ### Python path primitives, modelled on lists of characters -/

/-- ASCII lowercasing of one character, as `str.lower` acts on the ASCII
range (the only range relevant to the `".json"` comparison in the source). -/
def pyLowerChar (c : Char) : Char :=
  if 'A' ≤ c ∧ c ≤ 'Z' then Char.ofNat (c.toNat + 32) else c

/-- Model of Python `str.lower` on the ASCII range. -/
def pyLower (s : String) : String :=
  String.mk (s.data.map pyLowerChar)

/-- Model of POSIX `os.path.splitext` on a character list: split off the
extension beginning at the last dot of the basename, provided some character
of the basename strictly before that dot is not itself a dot (leading dots of
the basename never start an extension). -/
def pySplitextList (p : List Char) : List Char × List Char :=
  let r := p.reverse
  let base := r.takeWhile (fun c => c ≠ '/')
  match base.findIdx? (fun c => c = '.') with
  | none => (p, [])
  | some i =>
    if (base.drop (i + 1)).any (fun c => c ≠ '.') then
      ((r.drop (i + 1)).reverse, (r.take (i + 1)).reverse)
    else (p, [])

/-- Model of `os.path.splitext` on strings. -/
def pySplitext (s : String) : String × String :=
  let p := pySplitextList s.data
  (String.mk p.1, String.mk p.2)

/-- Model of Python `str.startswith`. -/
def pyStartsWith (s pre : String) : Bool :=
  pre.data.isPrefixOf s.data

example : pySplitext "x.mzTab" = ("x", ".mzTab") := by decide
example : pySplitext "test/data/file.json" = ("test/data/file", ".json") := by decide
example : pySplitext ".json" = (".json", "") := by decide
example : pySplitext "a..b" = ("a.", ".b") := by decide
example : pySplitext "dir.d/x" = ("dir.d/x", "") := by decide
example : pyLower ".JSoN" = ".json" := by decide

/-! ### The module-level mapper list -/

/-- The mapper classes instantiated in the module-level `mappers` list of
`converter.py`, one constructor per class. -/
inductive MapperId where
  | metadataBase
  | metadataContact
  | metadataPublication
  | metadataCv
  | metadataSample
  | metadataSampleProcessing
  | metadataSoftware
  | metadataDatabase
  | metadataAssay
  | smallMoleculeSummary
deriving DecidableEq

/-- The module-level `mappers` list, in its declared order. -/
def mappers : List MapperId :=
  [MapperId.metadataBase,
   MapperId.metadataContact,
   MapperId.metadataPublication,
   MapperId.metadataCv,
   MapperId.metadataSample,
   MapperId.metadataSampleProcessing,
   MapperId.metadataSoftware,
   MapperId.metadataDatabase,
   MapperId.metadataAssay,
   MapperId.smallMoleculeSummary]

/-! ### Observable events of one `convert` run -/

/-- One observable action of a `convert` run, in program order.  `updateCall`
records the source model object handed to the mapper, so the trace shows what
every mapper observed. -/
inductive Event (σ : Type) where
  | print (msg : String)
  | launchTool
  | readFile (path : String)
  | normalizeRaw
  | validateModel
  | normalizeModel
  | createModel (accession : String)
  | updateCall (m : MapperId) (src : σ)
  | save
deriving DecidableEq

/-- Outcome of the single `subprocess.run` call, as the surrounding
`try`/`except` distinguishes them: normal completion, `CalledProcessError`
(non-zero exit under `check=True`, e.g. an unavailable container runtime
reported by `sh`), `TimeoutExpired`, or any other exception.  Captured
`stdout`/`stderr` are carried where Python captures them. -/
inductive SubprocOutcome where
  | ok (stdout stderr : String)
  | calledProcessError (stdout stderr : String)
  | timeoutExpired (stdout stderr : String)
  | otherError (msg : String)
deriving DecidableEq

/-- The command-line arguments of `convert`. -/
structure ConvertArgs where
  input_file : String
  output_dir : String
  mtbls_accession_number : String
  container_engine : String
  mztab2m_json_convertor_image : String
  override_mztab2m_json_file : Bool

/-- The parts of the outside world the run consults: whether
`os.path.exists(input_file + ".json")` holds, and how the subprocess ends. -/
structure ConvertEnv where
  json_file_exists : Bool
  subproc : SubprocOutcome

/-- The collaborator stages whose implementations live outside
`converter.py`: JSON loading, the two normalization passes, pydantic model
construction, the destination-model factory, and each mapper's `update`
(which may raise, modelled as `Except`).  `ρ` is the raw JSON structure, `σ`
the mzTab source model, `δ` the MetaboLights destination model, `ε` the type
of mapper failures. -/
structure Stages (ρ σ δ ε : Type) where
  load : String → ρ
  replace_null_string_with_none : ρ → ρ
  model_validate : ρ → σ
  modify_mztab_model : σ → σ
  create_metabolights_study_model : String → δ
  update : MapperId → σ → δ → Except ε δ

/-- Final result of a run: normal completion with the populated destination
model, `sys.exit` with a status code, or a mapper exception propagating out. -/
inductive ConvertResult (δ ε : Type) where
  | completed (dest : δ)
  | exited (code : Nat)
  | raised (e : ε)
deriving DecidableEq

/-! ### The printed messages of `converter.py`, verbatim -/

def disclaimerMsg : String :=
  "Please note that the mzTab-M file is not fully validated by this tool. The ISA-Tab files are not validated either at the moment."

def defaultInputMsg1 : String :=
  "Using default input file: test/data/singaporean-plasma-site1.mzTab"

def defaultInputMsg2 : String :=
  "Please use the --input-file option to specify a custom input file."

def convertingMsg : String :=
  "Converting mzTab file to mzTab json format. Please check container management tool (docker, podman, etc.) is installed and runnig."

def timeoutMsg : String :=
  "The conversion of the mzTab file to mzTab json format timed out."

def failedMsg : String :=
  "The conversion of the mzTab file to mzTab json format failed."

def existsMsg (path : String) : String :=
  path ++ " file exists, it will be used as an input."

/-! ### The `convert` control flow -/

/-- The path the JSON model is read from: the input file itself when its
extension lowercases to `".json"`, otherwise the input path with `".json"`
appended. -/
def inputJsonPath (a : ConvertArgs) : String :=
  if pyLower (pySplitext a.input_file).2 = ".json" then a.input_file
  else a.input_file ++ ".json"

/-- The two unconditional leading prints of `convert` (disclaimer, plus the
default-input notice when the path starts with `"test/data/singa"`). -/
def headerTrace (σ : Type) (a : ConvertArgs) : List (Event σ) :=
  Event.print disclaimerMsg ::
    (if pyStartsWith a.input_file "test/data/singa" then
      [Event.print defaultInputMsg1, Event.print defaultInputMsg2]
    else [])

/-- The pre-conversion section (source lines 101-141): when the extension is
not `".json"`, either reuse an existing `input_file + ".json"` (unless
overriding) or launch the containerized tool once; `TimeoutExpired`,
`CalledProcessError` and other exceptions print their messages and
`sys.exit(1)` (the `finally` block prints captured stdout only when the
`subprocess.run` assignment completed, i.e. in the success case). -/
def preConvTrace (σ : Type) (env : ConvertEnv) (a : ConvertArgs) :
    Except Nat Unit × List (Event σ) :=
  if pyLower (pySplitext a.input_file).2 = ".json" then
    (Except.ok (), [])
  else if !a.override_mztab2m_json_file && env.json_file_exists then
    (Except.ok (), [Event.print (existsMsg (a.input_file ++ ".json"))])
  else
    match env.subproc with
    | SubprocOutcome.ok out _ =>
      (Except.ok (),
        [Event.print convertingMsg, Event.launchTool] ++
          (if out ≠ "" then [Event.print out] else []))
    | SubprocOutcome.timeoutExpired _ _ =>
      (Except.error 1,
        [Event.print convertingMsg, Event.launchTool, Event.print timeoutMsg])
    | SubprocOutcome.calledProcessError _ errOut =>
      (Except.error 1,
        [Event.print convertingMsg, Event.launchTool, Event.print failedMsg,
         Event.print errOut])
    | SubprocOutcome.otherError msg =>
      (Except.error 1,
        [Event.print convertingMsg, Event.launchTool, Event.print failedMsg,
         Event.print msg])

/-- The `for mapper in mappers: mapper.update(mztab_model, mtbls_model)`
loop: each mapper is invoked once on the shared source model and the
destination threaded from the previous mapper; a raising mapper ends the
loop at once.  Returns the loop outcome and the invocation trace. -/
def runMapperLoop {σ δ ε : Type} (upd : MapperId → σ → δ → Except ε δ)
    (src : σ) : List MapperId → δ → Except ε δ × List (Event σ)
  | [], d => (Except.ok d, [])
  | m :: rest, d =>
    match upd m src d with
    | Except.ok d' =>
      let p := runMapperLoop upd src rest d'
      (p.1, Event.updateCall m src :: p.2)
    | Except.error e => (Except.error e, [Event.updateCall m src])

/-- The source model every mapper receives: loaded from `inputJsonPath`,
null-sentinel normalized, validated into the model, then quirk-corrected. -/
def normalizedSource {ρ σ δ ε : Type} (st : Stages ρ σ δ ε)
    (a : ConvertArgs) : σ :=
  st.modify_mztab_model
    (st.model_validate
      (st.replace_null_string_with_none (st.load (inputJsonPath a))))

/-- The events of source lines 143-150 in program order: read the JSON file,
normalize the raw structure, construct the model, normalize the model,
create the destination skeleton from the accession number. -/
def setupTrace (σ : Type) (a : ConvertArgs) : List (Event σ) :=
  [Event.readFile (inputJsonPath a), Event.normalizeRaw, Event.validateModel,
   Event.normalizeModel, Event.createModel a.mtbls_accession_number]

/-- Source lines 143-157: read and parse the JSON file, normalize the raw
structure, construct and normalize the model, create the destination
skeleton from the accession number, run the mapper loop, and serialize on
success. -/
def pipelineStage {ρ σ δ ε : Type} (st : Stages ρ σ δ ε) (a : ConvertArgs) :
    ConvertResult δ ε × List (Event σ) :=
  let src := normalizedSource st a
  let d0 := st.create_metabolights_study_model a.mtbls_accession_number
  let p := runMapperLoop st.update src mappers d0
  match p.1 with
  | Except.ok d => (ConvertResult.completed d, setupTrace σ a ++ p.2 ++ [Event.save])
  | Except.error e => (ConvertResult.raised e, setupTrace σ a ++ p.2)

/-- The whole `convert` command: header prints, the pre-conversion section
(whose `sys.exit(1)` ends the run), then the parsing/mapping/serialization
pipeline. -/
def convert {ρ σ δ ε : Type} (st : Stages ρ σ δ ε) (env : ConvertEnv)
    (a : ConvertArgs) : ConvertResult δ ε × List (Event σ) :=
  match preConvTrace σ env a with
  | (Except.ok _, tr) =>
    let p := pipelineStage st a
    (p.1, headerTrace σ a ++ tr ++ p.2)
  | (Except.error c, tr) => (ConvertResult.exited c, headerTrace σ a ++ tr)

/-- The mapper invocations of a trace, in order, each with the source model
the mapper observed. -/
def updateEvents {σ : Type} (tr : List (Event σ)) : List (MapperId × σ) :=
  tr.filterMap (fun e =>
    match e with
    | Event.updateCall m s => some (m, s)
    | _ => none)

/-- Events that may precede the pipeline: console prints and the tool
launch. -/
def isPrePipelineEvent {σ : Type} : Event σ → Bool
  | Event.print _ => true
  | Event.launchTool => true
  | _ => false

/-! ### The module-level instance list as process state (for cross-run facts)

`converter.py` builds `mappers` once at import time; `convert` iterates over
that global list.  To reason about object identity and per-instance attribute
state across runs, this second model tags every instance with an allocation
id `oid` and an abstract attribute state `attr`, and threads the attribute
states through a run the way Python attribute mutation would. -/

/-- A mapper instance of the module-level list: allocation id, class, and
its current attribute state. -/
structure MapperInst (α : Type) where
  oid : Nat
  mid : MapperId
  attr : α

/-- The module-level `mappers` list as built once at import time: one
instance per entry, allocation ids in construction order. -/
def moduleMappers {α : Type} (init : MapperId → α) : List (MapperInst α) :=
  mappers.enum.map fun p => { oid := p.1, mid := p.2, attr := init p.2 }

/-- One `convert` invocation's mapper loop over the module-level instance
list: each call may mutate the instance's attribute state.  Returns the
final destination, the instance list after the run (same objects, updated
attributes), and the call trace of (allocation id, attribute state observed
at call time). -/
def runStatefulLoop {α σ δ : Type} (upd : MapperId → α → σ → δ → α × δ)
    (src : σ) : List (MapperInst α) → δ → δ × List (MapperInst α) × List (Nat × α)
  | [], d => (d, [], [])
  | inst :: rest, d =>
    let p := upd inst.mid inst.attr src d
    let q := runStatefulLoop upd src rest p.2
    (q.1, { oid := inst.oid, mid := inst.mid, attr := p.1 } :: q.2.1,
      (inst.oid, inst.attr) :: q.2.2)

/-! ### Helper lemmas -/

theorem updateEvents_append {σ : Type} (t1 t2 : List (Event σ)) :
    updateEvents (t1 ++ t2) = updateEvents t1 ++ updateEvents t2 := by
  simp [updateEvents]

theorem updateEvents_map_updateCall {σ : Type} (src : σ) (l : List MapperId) :
    updateEvents (l.map fun m => Event.updateCall m src) =
      l.map fun m => (m, src) := by
  induction l with
  | nil => rfl
  | cons m rest ih =>
    simpa [updateEvents, List.filterMap_cons] using ih

theorem not_mem_of_pre {σ : Type} (tr : List (Event σ))
    (h : ∀ e ∈ tr, isPrePipelineEvent e = true) (e : Event σ)
    (he : isPrePipelineEvent e = false) : e ∉ tr := by
  intro hm
  have hc := h e hm
  rw [he] at hc
  exact Bool.noConfusion hc

theorem updateEvents_eq_nil_of_pre {σ : Type} (tr : List (Event σ))
    (h : ∀ e ∈ tr, isPrePipelineEvent e = true) : updateEvents tr = [] := by
  induction tr with
  | nil => rfl
  | cons e rest ih =>
    have he := h e (List.mem_cons_self e rest)
    have hrest : ∀ x ∈ rest, isPrePipelineEvent x = true :=
      fun x hx => h x (List.mem_cons_of_mem e hx)
    cases e with
    | print msg => simpa [updateEvents, List.filterMap_cons] using ih hrest
    | launchTool => simpa [updateEvents, List.filterMap_cons] using ih hrest
    | readFile p => simp [isPrePipelineEvent] at he
    | normalizeRaw => simp [isPrePipelineEvent] at he
    | validateModel => simp [isPrePipelineEvent] at he
    | normalizeModel => simp [isPrePipelineEvent] at he
    | createModel acc => simp [isPrePipelineEvent] at he
    | updateCall m s => simp [isPrePipelineEvent] at he
    | save => simp [isPrePipelineEvent] at he

theorem headerTrace_pre {σ : Type} (a : ConvertArgs) :
    ∀ e ∈ headerTrace σ a, isPrePipelineEvent e = true := by
  intro e he
  unfold headerTrace at he
  rw [List.mem_cons] at he
  rcases he with h | h
  · simp [h, isPrePipelineEvent]
  · split at h
    · rw [List.mem_cons, List.mem_singleton] at h
      rcases h with h | h <;> simp [h, isPrePipelineEvent]
    · simp at h

theorem preConvTrace_pre {σ : Type} (env : ConvertEnv) (a : ConvertArgs) :
    ∀ e ∈ (preConvTrace σ env a).2, isPrePipelineEvent e = true := by
  intro e he
  unfold preConvTrace at he
  split at he
  · simp at he
  · split at he
    · simp at he; simp [he, isPrePipelineEvent]
    · cases hs : env.subproc with
      | ok out errOut =>
        rw [hs] at he
        simp at he
        rcases he with h | h | ⟨_, h⟩ <;> simp [h, isPrePipelineEvent]
      | timeoutExpired so se =>
        rw [hs] at he
        simp at he
        rcases he with h | h | h <;> simp [h, isPrePipelineEvent]
      | calledProcessError so se =>
        rw [hs] at he
        simp at he
        rcases he with h | h | h | h <;> simp [h, isPrePipelineEvent]
      | otherError msg =>
        rw [hs] at he
        simp at he
        rcases he with h | h | h | h <;> simp [h, isPrePipelineEvent]

theorem runMapperLoop_trace_ok {σ δ ε : Type} (upd : MapperId → σ → δ → Except ε δ)
    (src : σ) : ∀ (l : List MapperId) (d : δ) (d' : δ),
      (runMapperLoop upd src l d).1 = Except.ok d' →
      (runMapperLoop upd src l d).2 = l.map fun m => Event.updateCall m src := by
  intro l
  induction l with
  | nil => intro d d' _; rfl
  | cons m rest ih =>
    intro d d' h
    unfold runMapperLoop at h ⊢
    cases hu : upd m src d with
    | ok d2 =>
      simp only [hu] at h ⊢
      exact congrArg (Event.updateCall m src :: ·) (ih d2 d' h)
    | error e => simp [hu] at h

theorem runMapperLoop_trace_shape {σ δ ε : Type}
    (upd : MapperId → σ → δ → Except ε δ) (src : σ) :
    ∀ (l : List MapperId) (d : δ), ∃ k, k ≤ l.length ∧
      (runMapperLoop upd src l d).2 =
        (l.take k).map fun m => Event.updateCall m src := by
  intro l
  induction l with
  | nil => intro d; exact ⟨0, Nat.le_refl 0, rfl⟩
  | cons m rest ih =>
    intro d
    unfold runMapperLoop
    cases hu : upd m src d with
    | ok d2 =>
      obtain ⟨k, hk, htr⟩ := ih d2
      refine ⟨k + 1, Nat.succ_le_succ hk, ?_⟩
      simp [hu, htr]
    | error e =>
      refine ⟨1, Nat.succ_le_succ (Nat.zero_le _), ?_⟩
      simp [hu]

theorem convert_eq_of_pre_ok {ρ σ δ ε : Type} (st : Stages ρ σ δ ε)
    (env : ConvertEnv) (a : ConvertArgs)
    (h : (preConvTrace σ env a).1 = Except.ok ()) :
    convert st env a =
      ((pipelineStage st a).1,
        headerTrace σ a ++ (preConvTrace σ env a).2 ++ (pipelineStage st a).2) := by
  unfold convert
  rcases hp : preConvTrace σ env a with ⟨r, tr⟩
  rw [hp] at h
  simp only at h
  subst h
  rfl

theorem convert_eq_of_pre_err {ρ σ δ ε : Type} (st : Stages ρ σ δ ε)
    (env : ConvertEnv) (a : ConvertArgs) (c : Nat)
    (h : (preConvTrace σ env a).1 = Except.error c) :
    convert st env a =
      (ConvertResult.exited c, headerTrace σ a ++ (preConvTrace σ env a).2) := by
  unfold convert
  rcases hp : preConvTrace σ env a with ⟨r, tr⟩
  rw [hp] at h
  simp only at h
  subst h
  rfl

theorem runStatefulLoop_oids {α σ δ : Type} (upd : MapperId → α → σ → δ → α × δ)
    (src : σ) : ∀ (insts : List (MapperInst α)) (d : δ),
      ((runStatefulLoop upd src insts d).2.1.map MapperInst.oid =
          insts.map MapperInst.oid) ∧
      ((runStatefulLoop upd src insts d).2.1.map MapperInst.mid =
          insts.map MapperInst.mid) := by
  intro insts
  induction insts with
  | nil => intro d; exact ⟨rfl, rfl⟩
  | cons inst rest ih =>
    intro d
    unfold runStatefulLoop
    obtain ⟨h1, h2⟩ := ih (upd inst.mid inst.attr src d).2
    exact ⟨by simp [h1], by simp [h2]⟩

theorem runStatefulLoop_calls {α σ δ : Type} (upd : MapperId → α → σ → δ → α × δ)
    (src : σ) : ∀ (insts : List (MapperInst α)) (d : δ),
      (runStatefulLoop upd src insts d).2.2 =
        insts.map fun i => (i.oid, i.attr) := by
  intro insts
  induction insts with
  | nil => intro d; rfl
  | cons inst rest ih =>
    intro d
    unfold runStatefulLoop
    simp [ih]

theorem headerTrace_only_prints {σ : Type} (a : ConvertArgs) :
    ∀ e ∈ headerTrace σ a, ∃ msg, e = Event.print msg := by
  intro e he
  unfold headerTrace at he
  rw [List.mem_cons] at he
  rcases he with h | h
  · exact ⟨disclaimerMsg, h⟩
  · split at h
    · rw [List.mem_cons, List.mem_singleton] at h
      rcases h with h | h
      · exact ⟨defaultInputMsg1, h⟩
      · exact ⟨defaultInputMsg2, h⟩
    · simp at h

theorem not_mem_headerTrace {σ : Type} (a : ConvertArgs) (e : Event σ)
    (he : ∀ msg, e ≠ Event.print msg) : e ∉ headerTrace σ a := by
  intro hm
  obtain ⟨msg, hmsg⟩ := headerTrace_only_prints a e hm
  exact he msg hmsg

theorem preConvTrace_json (σ : Type) (env : ConvertEnv) (a : ConvertArgs)
    (h : pyLower (pySplitext a.input_file).2 = ".json") :
    preConvTrace σ env a = (Except.ok (), []) := by
  unfold preConvTrace
  rw [if_pos h]

theorem preConvTrace_reuse (σ : Type) (env : ConvertEnv) (a : ConvertArgs)
    (hext : ¬pyLower (pySplitext a.input_file).2 = ".json")
    (ho : a.override_mztab2m_json_file = false)
    (hex : env.json_file_exists = true) :
    preConvTrace σ env a =
      (Except.ok (), [Event.print (existsMsg (a.input_file ++ ".json"))]) := by
  unfold preConvTrace
  rw [if_neg hext, if_pos (by simp [ho, hex])]

theorem launch_branch_of_or (env : ConvertEnv) (a : ConvertArgs)
    (hbranch : a.override_mztab2m_json_file = true ∨ env.json_file_exists = false) :
    ¬((!a.override_mztab2m_json_file && env.json_file_exists) = true) := by
  rcases hbranch with h | h <;> simp [h]

theorem preConvTrace_timeout (σ : Type) (env : ConvertEnv) (a : ConvertArgs)
    (so se : String)
    (hext : ¬pyLower (pySplitext a.input_file).2 = ".json")
    (hbranch : a.override_mztab2m_json_file = true ∨ env.json_file_exists = false)
    (hsub : env.subproc = SubprocOutcome.timeoutExpired so se) :
    preConvTrace σ env a =
      (Except.error 1,
        [Event.print convertingMsg, Event.launchTool, Event.print timeoutMsg]) := by
  unfold preConvTrace
  rw [if_neg hext, if_neg (launch_branch_of_or env a hbranch), hsub]

theorem preConvTrace_calledProcessError (σ : Type) (env : ConvertEnv)
    (a : ConvertArgs) (so se : String)
    (hext : ¬pyLower (pySplitext a.input_file).2 = ".json")
    (hbranch : a.override_mztab2m_json_file = true ∨ env.json_file_exists = false)
    (hsub : env.subproc = SubprocOutcome.calledProcessError so se) :
    preConvTrace σ env a =
      (Except.error 1,
        [Event.print convertingMsg, Event.launchTool, Event.print failedMsg,
         Event.print se]) := by
  unfold preConvTrace
  rw [if_neg hext, if_neg (launch_branch_of_or env a hbranch), hsub]

theorem preConvTrace_otherError (σ : Type) (env : ConvertEnv)
    (a : ConvertArgs) (msg : String)
    (hext : ¬pyLower (pySplitext a.input_file).2 = ".json")
    (hbranch : a.override_mztab2m_json_file = true ∨ env.json_file_exists = false)
    (hsub : env.subproc = SubprocOutcome.otherError msg) :
    preConvTrace σ env a =
      (Except.error 1,
        [Event.print convertingMsg, Event.launchTool, Event.print failedMsg,
         Event.print msg]) := by
  unfold preConvTrace
  rw [if_neg hext, if_neg (launch_branch_of_or env a hbranch), hsub]

theorem pipelineStage_of_ok {ρ σ δ ε : Type} (st : Stages ρ σ δ ε)
    (a : ConvertArgs) (d : δ)
    (h : (runMapperLoop st.update (normalizedSource st a) mappers
        (st.create_metabolights_study_model a.mtbls_accession_number)).1 =
      Except.ok d) :
    pipelineStage st a =
      (ConvertResult.completed d,
        setupTrace σ a ++
          (mappers.map fun m => Event.updateCall m (normalizedSource st a)) ++
          [Event.save]) := by
  have htr := runMapperLoop_trace_ok st.update (normalizedSource st a) mappers
    (st.create_metabolights_study_model a.mtbls_accession_number) d h
  simp only [pipelineStage]
  rw [h, htr]

theorem pipelineStage_of_err {ρ σ δ ε : Type} (st : Stages ρ σ δ ε)
    (a : ConvertArgs) (e : ε)
    (h : (runMapperLoop st.update (normalizedSource st a) mappers
        (st.create_metabolights_study_model a.mtbls_accession_number)).1 =
      Except.error e) :
    pipelineStage st a =
      (ConvertResult.raised e,
        setupTrace σ a ++
          (runMapperLoop st.update (normalizedSource st a) mappers
            (st.create_metabolights_study_model a.mtbls_accession_number)).2) := by
  simp only [pipelineStage]
  rw [h]

theorem pipelineStage_trace {ρ σ δ ε : Type} (st : Stages ρ σ δ ε)
    (a : ConvertArgs) :
    ∃ rest, (pipelineStage st a).2 = setupTrace σ a ++ rest ∧
      ∀ e ∈ rest,
        (∃ m s, e = Event.updateCall m s) ∨ e = Event.save := by
  cases hl : (runMapperLoop st.update (normalizedSource st a) mappers
      (st.create_metabolights_study_model a.mtbls_accession_number)).1 with
  | ok d =>
    rw [pipelineStage_of_ok st a d hl]
    refine ⟨(mappers.map fun m =>
      Event.updateCall m (normalizedSource st a)) ++ [Event.save], by simp, ?_⟩
    intro e he
    rw [List.mem_append] at he
    rcases he with h | h
    · obtain ⟨m, _, hm⟩ := List.mem_map.mp h
      exact Or.inl ⟨m, normalizedSource st a, hm.symm⟩
    · exact Or.inr (List.mem_singleton.mp h)
  | error e0 =>
    rw [pipelineStage_of_err st a e0 hl]
    obtain ⟨k, _, htr⟩ := runMapperLoop_trace_shape st.update
      (normalizedSource st a) mappers
      (st.create_metabolights_study_model a.mtbls_accession_number)
    refine ⟨_, rfl, ?_⟩
    intro e he
    rw [htr] at he
    obtain ⟨m, _, hm⟩ := List.mem_map.mp he
    exact Or.inl ⟨m, normalizedSource st a, hm.symm⟩

theorem convert_completed_trace {ρ σ δ ε : Type} (st : Stages ρ σ δ ε)
    (env : ConvertEnv) (a : ConvertArgs) (d : δ)
    (h : (convert st env a).1 = ConvertResult.completed d) :
    (preConvTrace σ env a).1 = Except.ok () ∧
    (runMapperLoop st.update (normalizedSource st a) mappers
        (st.create_metabolights_study_model a.mtbls_accession_number)).1 =
      Except.ok d ∧
    (convert st env a).2 =
      headerTrace σ a ++ (preConvTrace σ env a).2 ++ setupTrace σ a ++
        (mappers.map fun m => Event.updateCall m (normalizedSource st a)) ++
        [Event.save] := by
  cases hp : (preConvTrace σ env a).1 with
  | error c =>
    rw [convert_eq_of_pre_err st env a c hp] at h
    exact absurd h (by simp)
  | ok u =>
    cases u
    have hc := convert_eq_of_pre_ok st env a hp
    cases hl : (runMapperLoop st.update (normalizedSource st a) mappers
        (st.create_metabolights_study_model a.mtbls_accession_number)).1 with
    | error e0 =>
      rw [hc, pipelineStage_of_err st a e0 hl] at h
      exact absurd h (by simp)
    | ok d' =>
      rw [hc, pipelineStage_of_ok st a d' hl] at h
      simp only [] at h
      have hdd : d' = d := by
        cases h
        rfl
      subst hdd
      refine ⟨rfl, rfl, ?_⟩
      rw [hc, pipelineStage_of_ok st a d' hl]
      simp

theorem convert_raised_trace {ρ σ δ ε : Type} (st : Stages ρ σ δ ε)
    (env : ConvertEnv) (a : ConvertArgs) (e : ε)
    (hpre : (preConvTrace σ env a).1 = Except.ok ())
    (h : (runMapperLoop st.update (normalizedSource st a) mappers
        (st.create_metabolights_study_model a.mtbls_accession_number)).1 =
      Except.error e) :
    (convert st env a).1 = ConvertResult.raised e ∧
    (convert st env a).2 =
      headerTrace σ a ++ (preConvTrace σ env a).2 ++ setupTrace σ a ++
        (runMapperLoop st.update (normalizedSource st a) mappers
          (st.create_metabolights_study_model a.mtbls_accession_number)).2 := by
  have hc := convert_eq_of_pre_ok st env a hpre
  rw [hc, pipelineStage_of_err st a e h]
  constructor
  · rfl
  · simp

theorem mappers_nodup : mappers.Nodup := by decide

theorem mapper_mem (m : MapperId) : m ∈ mappers := by cases m <;> decide

theorem save_not_mem_setupTrace {σ : Type} (a : ConvertArgs) :
    Event.save ∉ setupTrace σ a := by
  simp [setupTrace]

theorem pipeline_events_not_mem_of_pre {σ : Type} (tr : List (Event σ))
    (h : ∀ e ∈ tr, isPrePipelineEvent e = true) :
    (∀ p, Event.readFile p ∉ tr) ∧ Event.normalizeRaw ∉ tr ∧
    Event.validateModel ∉ tr ∧ Event.normalizeModel ∉ tr ∧
    (∀ acc, Event.createModel acc ∉ tr) ∧
    (∀ m s, Event.updateCall m s ∉ tr) ∧ Event.save ∉ tr :=
  ⟨fun p => not_mem_of_pre tr h (Event.readFile p) rfl,
   not_mem_of_pre tr h Event.normalizeRaw rfl,
   not_mem_of_pre tr h Event.validateModel rfl,
   not_mem_of_pre tr h Event.normalizeModel rfl,
   fun acc => not_mem_of_pre tr h (Event.createModel acc) rfl,
   fun m s => not_mem_of_pre tr h (Event.updateCall m s) rfl,
   not_mem_of_pre tr h Event.save rfl⟩

/-! ### Concrete fixtures used by the witnesses and counterexamples -/

/-- Collaborator stages over unit models whose mappers all succeed. -/
def idStages : Stages Unit Unit Unit Unit where
  load := fun _ => ()
  replace_null_string_with_none := fun r => r
  model_validate := fun _ => ()
  modify_mztab_model := fun s => s
  create_metabolights_study_model := fun _ => ()
  update := fun _ _ d => Except.ok d

/-- Collaborator stages over unit models whose sample mapper raises. -/
def failStages : Stages Unit Unit Unit Unit where
  load := fun _ => ()
  replace_null_string_with_none := fun r => r
  model_validate := fun _ => ()
  modify_mztab_model := fun s => s
  create_metabolights_study_model := fun _ => ()
  update := fun m _ d =>
    if m = MapperId.metadataSample then Except.error () else Except.ok d

/-- Arguments whose input file already has a (case-insensitive) `.json`
extension. -/
def jsonArgs : ConvertArgs where
  input_file := "data/sample.JSON"
  output_dir := "output"
  mtbls_accession_number := "MTBLS1000000"
  container_engine := "docker"
  mztab2m_json_convertor_image := "quay.io/biocontainers/jmztab-m:1.0.6--hdfd78af_1"
  override_mztab2m_json_file := false

/-- Arguments whose input file has a `.mzTab` extension. -/
def mzArgs : ConvertArgs where
  input_file := "data/sample.mzTab"
  output_dir := "output"
  mtbls_accession_number := "MTBLS1000000"
  container_engine := "docker"
  mztab2m_json_convertor_image := "quay.io/biocontainers/jmztab-m:1.0.6--hdfd78af_1"
  override_mztab2m_json_file := false

/-- Environment with no pre-existing JSON file and a silent, successful
tool run. -/
def quietEnv : ConvertEnv where
  json_file_exists := false
  subproc := SubprocOutcome.ok "" ""

/-- Environment in which `input_file + ".json"` already exists. -/
def reuseEnv : ConvertEnv where
  json_file_exists := true
  subproc := SubprocOutcome.ok "" ""

/-- Environment whose tool run times out after capturing diagnostics. -/
def timeoutEnv : ConvertEnv where
  json_file_exists := false
  subproc := SubprocOutcome.timeoutExpired "tool-stdout-diag" "tool-stderr-diag"

/-- Environment whose tool run exits non-zero after capturing diagnostics. -/
def calledErrEnv : ConvertEnv where
  json_file_exists := false
  subproc := SubprocOutcome.calledProcessError "tool-stdout-diag" "tool-stderr-diag"

/-! ### The claims -/

/-- C3 counterexample: the module-level mapper list does not have nine
entries; it has ten (a base-metadata mapper precedes the nine facet
mappers). -/
theorem mapper_list_has_ten_entries_not_nine :
    mappers.length ≠ 9 ∧ mappers.length = 10 := by decide

/-- C3 (amended): the driver's ordered mapper list contains exactly ten
entries: a base-metadata mapper followed by the nine facet mappers
(contacts, publications, controlled-vocabulary terms, samples, sample
processing, software, databases, assay metadata, small-molecule summary),
in that order. -/
theorem mapper_list_entries :
    mappers =
      [MapperId.metadataBase, MapperId.metadataContact,
       MapperId.metadataPublication, MapperId.metadataCv,
       MapperId.metadataSample, MapperId.metadataSampleProcessing,
       MapperId.metadataSoftware, MapperId.metadataDatabase,
       MapperId.metadataAssay, MapperId.smallMoleculeSummary] ∧
    mappers.length = 10 :=
  ⟨rfl, rfl⟩

/-- C1: in every conversion run that completes, the driver invokes the
mapper units strictly sequentially in the declared order of the `mappers`
list (so in particular contacts before publications before CV terms before
samples before sample processing before software before databases before
assay metadata before the small-molecule summary), each exactly once via
`update` on the one shared normalized source model, with the destination
threaded through the calls and no reordering. -/
theorem driver_applies_mappers_in_order_once {ρ σ δ ε : Type}
    (st : Stages ρ σ δ ε) (env : ConvertEnv) (a : ConvertArgs) (d : δ)
    (h : (convert st env a).1 = ConvertResult.completed d) :
    updateEvents (convert st env a).2 =
      (mappers.map fun m => (m, normalizedSource st a)) ∧
    ∀ m : MapperId,
      ((updateEvents (convert st env a).2).map Prod.fst).count m = 1 := by
  obtain ⟨hpre, hloop, htr⟩ := convert_completed_trace st env a d h
  have hmain : updateEvents (convert st env a).2 =
      mappers.map fun m => (m, normalizedSource st a) := by
    rw [htr, updateEvents_append, updateEvents_append, updateEvents_append,
      updateEvents_append,
      updateEvents_eq_nil_of_pre _ (headerTrace_pre a),
      updateEvents_eq_nil_of_pre _ (preConvTrace_pre env a),
      updateEvents_map_updateCall]
    simp [updateEvents, setupTrace]
  refine ⟨hmain, fun m => ?_⟩
  have hfst : (List.map (fun m => (m, normalizedSource st a)) mappers).map Prod.fst
      = mappers := by
    rw [List.map_map]
    exact List.map_id mappers
  rw [hmain, hfst]
  exact List.count_eq_one_of_mem mappers_nodup (mapper_mem m)

/-- Witness for C1: a concrete completed run over unit models. -/
theorem driver_applies_mappers_in_order_once_witness :
    (convert idStages quietEnv jsonArgs).1 = ConvertResult.completed () ∧
    (updateEvents (convert idStages quietEnv jsonArgs).2 =
        (mappers.map fun m => (m, ())) ∧
      ∀ m : MapperId,
        ((updateEvents (convert idStages quietEnv jsonArgs).2).map Prod.fst).count m
          = 1) :=
  ⟨by decide,
   driver_applies_mappers_in_order_once idStages quietEnv jsonArgs () (by decide)⟩

/-- C2: if a mapper's `update` raises, the later mappers of the list are
not attempted (the invoked mappers form a prefix of the list), the failure
propagates out of the run, and the serializer is never reached (no `save`
event occurs). -/
theorem mapper_failure_aborts_run {ρ σ δ ε : Type} (st : Stages ρ σ δ ε)
    (env : ConvertEnv) (a : ConvertArgs) (e : ε)
    (hpre : (preConvTrace σ env a).1 = Except.ok ())
    (h : (runMapperLoop st.update (normalizedSource st a) mappers
        (st.create_metabolights_study_model a.mtbls_accession_number)).1 =
      Except.error e) :
    (convert st env a).1 = ConvertResult.raised e ∧
    Event.save ∉ (convert st env a).2 ∧
    ∃ k, k ≤ mappers.length ∧
      updateEvents (convert st env a).2 =
        ((mappers.take k).map fun m => (m, normalizedSource st a)) ∧
      ∀ m ∈ mappers.drop k,
        (m, normalizedSource st a) ∉ updateEvents (convert st env a).2 := by
  obtain ⟨hres, htr⟩ := convert_raised_trace st env a e hpre h
  obtain ⟨k, hk, hloop⟩ := runMapperLoop_trace_shape st.update
    (normalizedSource st a) mappers
    (st.create_metabolights_study_model a.mtbls_accession_number)
  have hupd : updateEvents (convert st env a).2 =
      (mappers.take k).map fun m => (m, normalizedSource st a) := by
    rw [htr, hloop, updateEvents_append, updateEvents_append, updateEvents_append,
      updateEvents_eq_nil_of_pre _ (headerTrace_pre a),
      updateEvents_eq_nil_of_pre _ (preConvTrace_pre env a),
      updateEvents_map_updateCall]
    simp [updateEvents, setupTrace]
  refine ⟨hres, ?_, k, hk, hupd, ?_⟩
  · rw [htr]
    intro hm
    simp only [List.mem_append] at hm
    rcases hm with ((hm | hm) | hm) | hm
    · exact not_mem_headerTrace a Event.save (fun msg hmsg => by cases hmsg) hm
    · exact not_mem_of_pre _ (preConvTrace_pre env a) Event.save rfl hm
    · exact save_not_mem_setupTrace a hm
    · rw [hloop] at hm
      obtain ⟨m, _, hmm⟩ := List.mem_map.mp hm
      cases hmm
  · intro m hm hmem
    rw [hupd] at hmem
    obtain ⟨m', hm', hpair⟩ := List.mem_map.mp hmem
    have hmm : m' = m := congrArg Prod.fst hpair
    subst hmm
    have hnd := mappers_nodup
    rw [← List.take_append_drop k mappers] at hnd
    exact (List.nodup_append.mp hnd).2.2 hm' hm

/-- Witness for C2: a concrete run over unit models whose sample mapper
raises. -/
theorem mapper_failure_aborts_run_witness :
    ((preConvTrace Unit quietEnv jsonArgs).1 = Except.ok () ∧
      (runMapperLoop failStages.update (normalizedSource failStages jsonArgs)
          mappers
          (failStages.create_metabolights_study_model
            jsonArgs.mtbls_accession_number)).1 = Except.error ()) ∧
    ((convert failStages quietEnv jsonArgs).1 = ConvertResult.raised () ∧
      Event.save ∉ (convert failStages quietEnv jsonArgs).2 ∧
      ∃ k, k ≤ mappers.length ∧
        updateEvents (convert failStages quietEnv jsonArgs).2 =
          ((mappers.take k).map fun m => (m, ())) ∧
        ∀ m ∈ mappers.drop k,
          (m, ()) ∉ updateEvents (convert failStages quietEnv jsonArgs).2) :=
  ⟨⟨rfl, rfl⟩,
   mapper_failure_aborts_run failStages quietEnv jsonArgs () rfl rfl⟩

/-- C4: in every run the stages occur in the fixed order: raw-structure
normalization after the file read and before model construction, model
normalization before any mapper, skeleton creation (with the given
accession) before the first mapper, and serialization (`save`) only after
the last mapper completes — the `save` event occurs exactly when the run
completes, and a completed run's trace is some prints/tool-launch events
followed by read, raw normalization, validation, model normalization,
skeleton creation, the mapper calls (each observing the fully normalized
source model), and `save`. -/
theorem stage_order_of_run {ρ σ δ ε : Type} (st : Stages ρ σ δ ε)
    (env : ConvertEnv) (a : ConvertArgs) :
    (Event.save ∈ (convert st env a).2 ↔
      ∃ d, (convert st env a).1 = ConvertResult.completed d) ∧
    ∀ d, (convert st env a).1 = ConvertResult.completed d →
      ∃ pre, (∀ e ∈ pre, isPrePipelineEvent e = true) ∧
        (convert st env a).2 =
          pre ++
            [Event.readFile (inputJsonPath a), Event.normalizeRaw,
             Event.validateModel, Event.normalizeModel,
             Event.createModel a.mtbls_accession_number] ++
            (mappers.map fun m => Event.updateCall m (normalizedSource st a)) ++
            [Event.save] := by
  have hset : ([Event.readFile (inputJsonPath a), Event.normalizeRaw,
      Event.validateModel, Event.normalizeModel,
      Event.createModel a.mtbls_accession_number] : List (Event σ)) =
      setupTrace σ a := rfl
  constructor
  · constructor
    · intro hs
      cases hp : (preConvTrace σ env a).1 with
      | error c =>
        rw [convert_eq_of_pre_err st env a c hp] at hs
        exfalso
        rw [List.mem_append] at hs
        rcases hs with hs | hs
        · exact not_mem_headerTrace a Event.save (fun msg hmsg => by cases hmsg) hs
        · exact not_mem_of_pre _ (preConvTrace_pre env a) Event.save rfl hs
      | ok u =>
        cases u
        have hc := convert_eq_of_pre_ok st env a hp
        cases hl : (runMapperLoop st.update (normalizedSource st a) mappers
            (st.create_metabolights_study_model a.mtbls_accession_number)).1 with
        | ok d =>
          refine ⟨d, ?_⟩
          rw [hc, pipelineStage_of_ok st a d hl]
        | error e0 =>
          exfalso
          rw [hc, pipelineStage_of_err st a e0 hl] at hs
          simp only [List.mem_append] at hs
          obtain ⟨k, _, hloop⟩ := runMapperLoop_trace_shape st.update
            (normalizedSource st a) mappers
            (st.create_metabolights_study_model a.mtbls_accession_number)
          rcases hs with (hs | hs) | hs | hs
          · exact not_mem_headerTrace a Event.save (fun msg hmsg => by cases hmsg) hs
          · exact not_mem_of_pre _ (preConvTrace_pre env a) Event.save rfl hs
          · exact save_not_mem_setupTrace a hs
          · rw [hloop] at hs
            obtain ⟨m, _, hmm⟩ := List.mem_map.mp hs
            cases hmm
    · rintro ⟨d, hd⟩
      obtain ⟨_, _, htr⟩ := convert_completed_trace st env a d hd
      rw [htr]
      simp
  · intro d hd
    obtain ⟨hpre, hloop, htr⟩ := convert_completed_trace st env a d hd
    refine ⟨headerTrace σ a ++ (preConvTrace σ env a).2, ?_, ?_⟩
    · intro e he
      rw [List.mem_append] at he
      rcases he with he | he
      · exact headerTrace_pre a e he
      · exact preConvTrace_pre env a e he
    · rw [htr, hset]

/-- Witness for C4: a concrete completed run over unit models. -/
theorem stage_order_of_run_witness :
    Event.save ∈ (convert idStages quietEnv jsonArgs).2 ∧
    ∃ pre, (∀ e ∈ pre, isPrePipelineEvent e = true) ∧
      (convert idStages quietEnv jsonArgs).2 =
        pre ++
          [Event.readFile (inputJsonPath jsonArgs), Event.normalizeRaw,
           Event.validateModel, Event.normalizeModel,
           Event.createModel jsonArgs.mtbls_accession_number] ++
          (mappers.map fun m => Event.updateCall m ()) ++
          [Event.save] :=
  ⟨(stage_order_of_run idStages quietEnv jsonArgs).1.mpr ⟨(), by decide⟩,
   (stage_order_of_run idStages quietEnv jsonArgs).2 () (by decide)⟩

/-- C5: when the input file's extension lowercases to `".json"`, the
external tool is never launched and the input file itself is the path the
JSON model is read from. -/
theorem json_input_skips_tool {ρ σ δ ε : Type} (st : Stages ρ σ δ ε)
    (env : ConvertEnv) (a : ConvertArgs)
    (h : pyLower (pySplitext a.input_file).2 = ".json") :
    inputJsonPath a = a.input_file ∧
    Event.launchTool ∉ (convert st env a).2 ∧
    Event.readFile a.input_file ∈ (convert st env a).2 := by
  have hpath : inputJsonPath a = a.input_file := by
    unfold inputJsonPath
    rw [if_pos h]
  have hp := preConvTrace_json σ env a h
  have hpre1 : (preConvTrace σ env a).1 = Except.ok () := by rw [hp]
  have hc := convert_eq_of_pre_ok st env a hpre1
  obtain ⟨rest, hrest, hmem⟩ := pipelineStage_trace st a
  refine ⟨hpath, ?_, ?_⟩
  · rw [hc, hrest]
    intro hm
    simp only [List.mem_append] at hm
    rcases hm with (hm | hm) | hm | hm
    · exact not_mem_headerTrace a Event.launchTool (fun msg hmsg => by cases hmsg) hm
    · rw [hp] at hm
      simp at hm
    · simp [setupTrace] at hm
    · rcases hmem Event.launchTool hm with ⟨m, s, hms⟩ | hms <;> cases hms
  · rw [hc, hrest, ← hpath]
    simp [List.mem_append, setupTrace]

/-- Witness for C5: a concrete run on an input named with an upper-case
`.JSON` extension. -/
theorem json_input_skips_tool_witness :
    pyLower (pySplitext jsonArgs.input_file).2 = ".json" ∧
    (inputJsonPath jsonArgs = jsonArgs.input_file ∧
      Event.launchTool ∉ (convert idStages quietEnv jsonArgs).2 ∧
      Event.readFile jsonArgs.input_file ∈ (convert idStages quietEnv jsonArgs).2) :=
  ⟨by decide, json_input_skips_tool idStages quietEnv jsonArgs (by decide)⟩

/-- C6: when the pre-conversion tool branch is taken and the subprocess
times out, the run exits with status 1, prints the timeout message, the
tool is launched exactly once (no retry), and no parsing, normalization,
model construction, skeleton creation, mapping, or serialization event
occurs. -/
theorem timeout_exits_without_pipeline {ρ σ δ ε : Type} [DecidableEq σ]
    (st : Stages ρ σ δ ε) (env : ConvertEnv) (a : ConvertArgs) (so se : String)
    (hext : ¬pyLower (pySplitext a.input_file).2 = ".json")
    (hbranch : a.override_mztab2m_json_file = true ∨ env.json_file_exists = false)
    (hsub : env.subproc = SubprocOutcome.timeoutExpired so se) :
    (convert st env a).1 = ConvertResult.exited 1 ∧
    Event.print timeoutMsg ∈ (convert st env a).2 ∧
    (convert st env a).2.count Event.launchTool = 1 ∧
    (∀ p, Event.readFile p ∉ (convert st env a).2) ∧
    Event.normalizeRaw ∉ (convert st env a).2 ∧
    Event.validateModel ∉ (convert st env a).2 ∧
    Event.normalizeModel ∉ (convert st env a).2 ∧
    (∀ acc, Event.createModel acc ∉ (convert st env a).2) ∧
    (∀ m s, Event.updateCall m s ∉ (convert st env a).2) ∧
    Event.save ∉ (convert st env a).2 := by
  have hp := preConvTrace_timeout σ env a so se hext hbranch hsub
  have hpre1 : (preConvTrace σ env a).1 = Except.error 1 := by rw [hp]
  have hc := convert_eq_of_pre_err st env a 1 hpre1
  have htr : (convert st env a).2 = headerTrace σ a ++
      [Event.print convertingMsg, Event.launchTool, Event.print timeoutMsg] := by
    rw [hc, hp]
  have hpreAll : ∀ e ∈ (convert st env a).2, isPrePipelineEvent e = true := by
    intro e he
    rw [htr, List.mem_append] at he
    rcases he with he | he
    · exact headerTrace_pre a e he
    · simp at he
      rcases he with he | he | he <;> simp [he, isPrePipelineEvent]
  obtain ⟨hrf, hnr, hvm, hnm, hcm, huc, hsv⟩ :=
    pipeline_events_not_mem_of_pre _ hpreAll
  refine ⟨by rw [hc], ?_, ?_, hrf, hnr, hvm, hnm, hcm, huc, hsv⟩
  · rw [htr, List.mem_append]
    right
    simp
  · rw [htr, List.count_append]
    have h0 : (headerTrace σ a).count Event.launchTool = 0 :=
      List.count_eq_zero.mpr (not_mem_headerTrace a Event.launchTool
        (fun msg hmsg => by cases hmsg))
    rw [h0]
    simp [List.count_cons]

/-- Witness for C6: a concrete run on a `.mzTab` input whose tool launch
times out. -/
theorem timeout_exits_without_pipeline_witness :
    (¬pyLower (pySplitext mzArgs.input_file).2 = ".json" ∧
      timeoutEnv.json_file_exists = false ∧
      timeoutEnv.subproc =
        SubprocOutcome.timeoutExpired "tool-stdout-diag" "tool-stderr-diag") ∧
    ((convert idStages timeoutEnv mzArgs).1 = ConvertResult.exited 1 ∧
      Event.print timeoutMsg ∈ (convert idStages timeoutEnv mzArgs).2 ∧
      (convert idStages timeoutEnv mzArgs).2.count Event.launchTool = 1 ∧
      (∀ p, Event.readFile p ∉ (convert idStages timeoutEnv mzArgs).2) ∧
      Event.normalizeRaw ∉ (convert idStages timeoutEnv mzArgs).2 ∧
      Event.validateModel ∉ (convert idStages timeoutEnv mzArgs).2 ∧
      Event.normalizeModel ∉ (convert idStages timeoutEnv mzArgs).2 ∧
      (∀ acc, Event.createModel acc ∉ (convert idStages timeoutEnv mzArgs).2) ∧
      (∀ m s, Event.updateCall m s ∉ (convert idStages timeoutEnv mzArgs).2) ∧
      Event.save ∉ (convert idStages timeoutEnv mzArgs).2) :=
  ⟨⟨by decide, rfl, rfl⟩,
   timeout_exits_without_pipeline idStages timeoutEnv mzArgs
     "tool-stdout-diag" "tool-stderr-diag" (by decide) (Or.inr rfl) rfl⟩

theorem count_launch_header_cons {σ : Type} [DecidableEq σ] (a : ConvertArgs)
    (tail : List (Event σ)) :
    (headerTrace σ a ++ tail).count Event.launchTool =
      tail.count Event.launchTool := by
  rw [List.count_append, List.count_eq_zero.mpr (not_mem_headerTrace a
    Event.launchTool (fun msg hmsg => by cases hmsg))]
  simp

/-- C7 counterexample: on a timeout the run is fatal (exit status 1) but
the tool's captured stderr and stdout are not reported — only the fixed
timeout message is printed, so the claim that every external-tool failure
is reported with the captured diagnostic output fails at this input. -/
theorem timeout_diagnostics_not_reported :
    (convert idStages timeoutEnv mzArgs).1 = ConvertResult.exited 1 ∧
    Event.print "tool-stderr-diag" ∉ (convert idStages timeoutEnv mzArgs).2 ∧
    Event.print "tool-stdout-diag" ∉ (convert idStages timeoutEnv mzArgs).2 := by
  decide

/-- C7 (amended): every external-tool failure is fatal — the run exits with
status 1 after exactly one tool launch (no retry) — and is reported as
follows: a non-zero exit prints the failure message and the tool's captured
stderr; a timeout prints only the fixed timeout message, without the
captured output; any other launch error prints the failure message and the
exception text. -/
theorem tool_failure_fatal_reporting {ρ σ δ ε : Type} [DecidableEq σ]
    (st : Stages ρ σ δ ε) (env : ConvertEnv) (a : ConvertArgs)
    (hext : ¬pyLower (pySplitext a.input_file).2 = ".json")
    (hbranch : a.override_mztab2m_json_file = true ∨ env.json_file_exists = false) :
    (∀ so se, env.subproc = SubprocOutcome.calledProcessError so se →
      (convert st env a).1 = ConvertResult.exited 1 ∧
      Event.print failedMsg ∈ (convert st env a).2 ∧
      Event.print se ∈ (convert st env a).2 ∧
      (convert st env a).2.count Event.launchTool = 1) ∧
    (∀ so se, env.subproc = SubprocOutcome.timeoutExpired so se →
      (convert st env a).1 = ConvertResult.exited 1 ∧
      Event.print timeoutMsg ∈ (convert st env a).2 ∧
      (convert st env a).2.count Event.launchTool = 1) ∧
    (∀ msg, env.subproc = SubprocOutcome.otherError msg →
      (convert st env a).1 = ConvertResult.exited 1 ∧
      Event.print failedMsg ∈ (convert st env a).2 ∧
      Event.print msg ∈ (convert st env a).2 ∧
      (convert st env a).2.count Event.launchTool = 1) := by
  refine ⟨?_, ?_, ?_⟩
  · intro so se hsub
    have hp := preConvTrace_calledProcessError σ env a so se hext hbranch hsub
    have hpre1 : (preConvTrace σ env a).1 = Except.error 1 := by rw [hp]
    have hc := convert_eq_of_pre_err st env a 1 hpre1
    have htr : (convert st env a).2 = headerTrace σ a ++
        [Event.print convertingMsg, Event.launchTool, Event.print failedMsg,
         Event.print se] := by
      rw [hc, hp]
    refine ⟨by rw [hc], ?_, ?_, ?_⟩
    · rw [htr]
      simp
    · rw [htr]
      simp
    · rw [htr, count_launch_header_cons]
      simp [List.count_cons]
  · intro so se hsub
    have hp := preConvTrace_timeout σ env a so se hext hbranch hsub
    have hpre1 : (preConvTrace σ env a).1 = Except.error 1 := by rw [hp]
    have hc := convert_eq_of_pre_err st env a 1 hpre1
    have htr : (convert st env a).2 = headerTrace σ a ++
        [Event.print convertingMsg, Event.launchTool, Event.print timeoutMsg] := by
      rw [hc, hp]
    refine ⟨by rw [hc], ?_, ?_⟩
    · rw [htr]
      simp
    · rw [htr, count_launch_header_cons]
      simp [List.count_cons]
  · intro msg hsub
    have hp := preConvTrace_otherError σ env a msg hext hbranch hsub
    have hpre1 : (preConvTrace σ env a).1 = Except.error 1 := by rw [hp]
    have hc := convert_eq_of_pre_err st env a 1 hpre1
    have htr : (convert st env a).2 = headerTrace σ a ++
        [Event.print convertingMsg, Event.launchTool, Event.print failedMsg,
         Event.print msg] := by
      rw [hc, hp]
    refine ⟨by rw [hc], ?_, ?_, ?_⟩
    · rw [htr]
      simp
    · rw [htr]
      simp
    · rw [htr, count_launch_header_cons]
      simp [List.count_cons]

/-- Witness for C7 (amended): a concrete run whose tool launch exits
non-zero with captured stderr. -/
theorem tool_failure_fatal_reporting_witness :
    (¬pyLower (pySplitext mzArgs.input_file).2 = ".json" ∧
      calledErrEnv.json_file_exists = false ∧
      calledErrEnv.subproc =
        SubprocOutcome.calledProcessError "tool-stdout-diag" "tool-stderr-diag") ∧
    ((convert idStages calledErrEnv mzArgs).1 = ConvertResult.exited 1 ∧
      Event.print failedMsg ∈ (convert idStages calledErrEnv mzArgs).2 ∧
      Event.print "tool-stderr-diag" ∈ (convert idStages calledErrEnv mzArgs).2 ∧
      (convert idStages calledErrEnv mzArgs).2.count Event.launchTool = 1) :=
  ⟨⟨by decide, rfl, rfl⟩,
   (tool_failure_fatal_reporting idStages calledErrEnv mzArgs
       (by decide) (Or.inr rfl)).1 "tool-stdout-diag" "tool-stderr-diag" rfl⟩

/-- C8: the mapper pipeline is deterministic: two runs of the mapper loop
on equal normalized source models and equal fresh destination skeletons
produce equal outcomes, destination models (and hence every emitted row)
included.  The mapper bodies live outside this module; following the spec
they are stateless, so each is a pure `update` function of its inputs
here. -/
theorem pipeline_deterministic_on_equal_inputs {ρ σ δ ε : Type}
    (st : Stages ρ σ δ ε) (src1 src2 : σ) (d1 d2 : δ)
    (hsrc : src1 = src2) (hd : d1 = d2) :
    runMapperLoop st.update src1 mappers d1 =
      runMapperLoop st.update src2 mappers d2 := by
  rw [hsrc, hd]

/-- Witness for C8: the loop over unit models, run twice. -/
theorem pipeline_deterministic_on_equal_inputs_witness :
    ((() : Unit) = () ∧ (() : Unit) = ()) ∧
    runMapperLoop idStages.update () mappers () =
      runMapperLoop idStages.update () mappers () :=
  ⟨⟨rfl, rfl⟩, pipeline_deterministic_on_equal_inputs idStages () () () () rfl rfl⟩

/-- C9: the module-level mapper list is built exactly once, at import time,
its ten instances receiving allocation ids 0 through 9; a `convert` run
iterates over those same instances (ids and classes preserved, nothing
freshly constructed), and a second run's mapper calls observe exactly the
per-instance attribute states the first run left behind — retained state is
visible across runs within the process. -/
theorem mapper_instances_constructed_once_and_shared {α σ δ : Type}
    (upd : MapperId → α → σ → δ → α × δ) (init : MapperId → α)
    (src1 src2 : σ) (d1 d2 : δ) :
    (moduleMappers init).map MapperInst.oid = [0, 1, 2, 3, 4, 5, 6, 7, 8, 9] ∧
    (runStatefulLoop upd src1 (moduleMappers init) d1).2.1.map MapperInst.oid =
      (moduleMappers init).map MapperInst.oid ∧
    (runStatefulLoop upd src1 (moduleMappers init) d1).2.1.map MapperInst.mid =
      (moduleMappers init).map MapperInst.mid ∧
    (runStatefulLoop upd src2
        (runStatefulLoop upd src1 (moduleMappers init) d1).2.1 d2).2.2 =
      (runStatefulLoop upd src1 (moduleMappers init) d1).2.1.map
        fun i => (i.oid, i.attr) :=
  ⟨rfl, (runStatefulLoop_oids upd src1 (moduleMappers init) d1).1,
   (runStatefulLoop_oids upd src1 (moduleMappers init) d1).2,
   runStatefulLoop_calls upd src2 _ d2⟩

/-- C10: when the input file's extension does not lowercase to `".json"`,
every file read of the run is from the input path with the literal suffix
`".json"` appended; and when that file already exists and the override
option is false, it is used as-is — the external tool is never launched. -/
theorem non_json_input_reads_suffixed_path {ρ σ δ ε : Type}
    (st : Stages ρ σ δ ε) (env : ConvertEnv) (a : ConvertArgs)
    (h : ¬pyLower (pySplitext a.input_file).2 = ".json") :
    inputJsonPath a = a.input_file ++ ".json" ∧
    (∀ p, Event.readFile p ∈ (convert st env a).2 →
      p = a.input_file ++ ".json") ∧
    (a.override_mztab2m_json_file = false → env.json_file_exists = true →
      Event.launchTool ∉ (convert st env a).2 ∧
      Event.readFile (a.input_file ++ ".json") ∈ (convert st env a).2) := by
  have hpath : inputJsonPath a = a.input_file ++ ".json" := by
    unfold inputJsonPath
    rw [if_neg h]
  refine ⟨hpath, ?_, ?_⟩
  · intro p hp
    cases hq : (preConvTrace σ env a).1 with
    | error c =>
      rw [convert_eq_of_pre_err st env a c hq, List.mem_append] at hp
      rcases hp with hp | hp
      · exact absurd hp (not_mem_headerTrace a (Event.readFile p)
          (fun msg hmsg => by cases hmsg))
      · exact absurd hp (not_mem_of_pre _ (preConvTrace_pre env a)
          (Event.readFile p) rfl)
    | ok u =>
      cases u
      have hc := convert_eq_of_pre_ok st env a hq
      obtain ⟨rest, hrest, hmem⟩ := pipelineStage_trace st a
      rw [hc, hrest] at hp
      simp only [List.mem_append] at hp
      rcases hp with (hp | hp) | hp | hp
      · exact absurd hp (not_mem_headerTrace a (Event.readFile p)
          (fun msg hmsg => by cases hmsg))
      · exact absurd hp (not_mem_of_pre _ (preConvTrace_pre env a)
          (Event.readFile p) rfl)
      · simp [setupTrace] at hp
        rw [hp]
        exact hpath
      · rcases hmem _ hp with ⟨m, s, hms⟩ | hms <;> cases hms
  · intro ho hex
    have hp := preConvTrace_reuse σ env a h ho hex
    have hpre1 : (preConvTrace σ env a).1 = Except.ok () := by rw [hp]
    have hc := convert_eq_of_pre_ok st env a hpre1
    obtain ⟨rest, hrest, hmem⟩ := pipelineStage_trace st a
    constructor
    · rw [hc, hrest]
      intro hm
      simp only [List.mem_append] at hm
      rcases hm with (hm | hm) | hm | hm
      · exact not_mem_headerTrace a Event.launchTool
          (fun msg hmsg => by cases hmsg) hm
      · rw [hp] at hm
        simp at hm
      · simp [setupTrace] at hm
      · rcases hmem Event.launchTool hm with ⟨m, s, hms⟩ | hms <;> cases hms
    · rw [hc, hrest, ← hpath]
      simp [List.mem_append, setupTrace]

/-- Witness for C10: a concrete run on a `.mzTab` input whose sibling
`.json` file exists, with the override flag false. -/
theorem non_json_input_reads_suffixed_path_witness :
    (¬pyLower (pySplitext mzArgs.input_file).2 = ".json") ∧
    (inputJsonPath mzArgs = mzArgs.input_file ++ ".json" ∧
      (∀ p, Event.readFile p ∈ (convert idStages reuseEnv mzArgs).2 →
        p = mzArgs.input_file ++ ".json") ∧
      (mzArgs.override_mztab2m_json_file = false →
        reuseEnv.json_file_exists = true →
        Event.launchTool ∉ (convert idStages reuseEnv mzArgs).2 ∧
        Event.readFile (mzArgs.input_file ++ ".json") ∈
          (convert idStages reuseEnv mzArgs).2)) :=
  ⟨by decide, non_json_input_reads_suffixed_path idStages reuseEnv mzArgs (by decide)⟩

end Mztab2Mtbls
